import Mathlib

/-
Verification of the `failover` Go package: a bounded retry-with-backoff
executor (`Retry`) and a circuit breaker (`CircuitBreaker.Execute`).

Shallow embedding notes:
* `time.Duration` is Go's `int64`: `delay *= 2` is wrapping 64-bit
  multiplication, modelled by doubling over `Int` followed by `wrap64`,
  which reduces into the signed 64-bit range. Timestamps (`time.Time`)
  are modelled as mathematical integers.
* Go `int` fields (`attempts`, thresholds, counters) are modelled as `Int`.
* The work function of `Retry` is modelled as `fn : Nat → Option Err`,
  giving the error (`some e`) or success (`none`) of the i-th invocation,
  0-indexed.
* The cancellable context is modelled by two oracles: `doneAtCheck i` holds
  when the non-blocking `select` on `ctx.Done()` at the top of iteration i
  observes cancellation, and `doneDuringWait i` holds when, during the
  inter-attempt wait after iteration i, `ctx.Done()` fires before the
  `time.After(delay)` timer.
* `Retry` returns, besides the Go return value (`nil` = `RetryRes.ok`,
  a work error, or `ctx.Err()` = `RetryRes.ctxErr`), the observable trace:
  how many times `fn` was invoked and the list of fully-completed waits.
* `CircuitBreaker.Execute` takes the wall-clock time `now` observed by
  `time.Since` at the gating check and the time `nowFail` observed by
  `time.Now()` inside `onFailure` (the work function runs between the two),
  plus the work function's result for this call. It returns the Go return
  value, whether the work function was invoked, and the updated breaker.
-/

namespace Failover

/-- Cancellation oracle standing for a `context.Context`. -/
structure Ctx where
  doneAtCheck : Nat → Bool
  doneDuringWait : Nat → Bool

/-- Return value of `Retry`: `ok` is a nil error, `workErr e` the error of
the last work invocation, `ctxErr` the context's cancellation error. -/
inductive RetryRes (Err : Type) where
  | ok : RetryRes Err
  | workErr : Err → RetryRes Err
  | ctxErr : RetryRes Err
deriving DecidableEq

/-- Observable outcome of a `Retry` call: the returned value, the number of
invocations of the work function, and the list of completed waits. -/
structure RetryOutcome (Err : Type) where
  res : RetryRes Err
  invocations : Nat
  waits : List Int
deriving DecidableEq

/-- Wrap an integer into the signed 64-bit range, as Go's `int64`
arithmetic does on overflow: 9223372036854775808 = 2 ^ 63 and
18446744073709551616 = 2 ^ 64. -/
def wrap64 (x : Int) : Int :=
  (x + 9223372036854775808) % 18446744073709551616 - 9223372036854775808

/-- The `for i := range attempts` loop body of `Retry` (src/failover.go
lines 19-45), by recursion on the remaining iteration count `r`; `i` is the
current iteration index and `delay` the current backoff delay. The
`delay *= 2` after a completed wait is `time.Duration` (int64)
multiplication, hence the `wrap64`. -/
def retryLoop {Err : Type} (fn : Nat → Option Err) (ctx : Ctx) :
    Nat → Nat → Int → RetryOutcome Err
  | _, 0, _ => ⟨RetryRes.ok, 0, []⟩
  | i, r + 1, delay =>
    if ctx.doneAtCheck i then ⟨RetryRes.ctxErr, 0, []⟩
    else
      match fn i with
      | none => ⟨RetryRes.ok, 1, []⟩
      | some e =>
        if r = 0 then ⟨RetryRes.workErr e, 1, []⟩
        else if ctx.doneDuringWait i then ⟨RetryRes.ctxErr, 1, []⟩
        else
          let rest := retryLoop fn ctx (i + 1) r (wrap64 (delay * 2))
          ⟨rest.res, rest.invocations + 1, delay :: rest.waits⟩

/-- `Retry(ctx, attempts, initialDelay, fn)` (src/failover.go lines 15-48).
`for i := range attempts` iterates `attempts` times when positive and zero
times otherwise, so the loop fuel is `attempts.toNat`; the initial `err` is
nil, so falling out of an empty loop returns `RetryRes.ok`. -/
def Retry {Err : Type} (ctx : Ctx) (attempts : Int) (initialDelay : Int)
    (fn : Nat → Option Err) : RetryOutcome Err :=
  retryLoop fn ctx 0 attempts.toNat initialDelay

/-- Breaker states (src/failover.go lines 50-59). -/
inductive State where
  | Closed : State
  | Open : State
  | HalfOpen : State
deriving DecidableEq

/-- Return value of `Execute`: nil (`none`), the sentinel `ErrCircuitOpen`
(`some circuitOpen`), or the work function's own error (`some (work e)`). -/
inductive CBError (Err : Type) where
  | circuitOpen : CBError Err
  | work : Err → CBError Err
deriving DecidableEq

/-- The breaker's mutable and configuration fields (src/failover.go lines
64-76); the mutex is not modelled, calls are sequentialised. -/
structure CircuitBreaker where
  state : State
  failureThreshold : Int
  successThreshold : Int
  openTimeout : Int
  failureCount : Int
  successCount : Int
  lastFailureTime : Int
deriving DecidableEq

/-- `NewCircuitBreaker` (src/failover.go lines 79-86): zero values for the
counters and for `lastFailureTime` (the `time.Time` zero value). -/
def NewCircuitBreaker (failureThreshold successThreshold openTimeout : Int) :
    CircuitBreaker :=
  ⟨State.Closed, failureThreshold, successThreshold, openTimeout, 0, 0, 0⟩

/-- `onSuccess` (src/failover.go lines 119-132). -/
def CircuitBreaker.onSuccess (cb : CircuitBreaker) : CircuitBreaker :=
  match cb.state with
  | State.HalfOpen =>
    let cb1 := { cb with successCount := cb.successCount + 1 }
    if cb1.successCount ≥ cb1.successThreshold then
      { cb1 with state := State.Closed, failureCount := 0 }
    else cb1
  | State.Closed => { cb with failureCount := 0 }
  | State.Open => cb

/-- `onFailure` (src/failover.go lines 134-147); `now` is the value of
`time.Now()` there. -/
def CircuitBreaker.onFailure (cb : CircuitBreaker) (now : Int) : CircuitBreaker :=
  match cb.state with
  | State.HalfOpen => { cb with state := State.Open, lastFailureTime := now }
  | State.Closed =>
    let cb1 := { cb with failureCount := cb.failureCount + 1 }
    if cb1.failureCount ≥ cb1.failureThreshold then
      { cb1 with state := State.Open, lastFailureTime := now }
    else cb1
  | State.Open => cb

/-- Observable outcome of one `Execute` call: the returned value, whether
the work function was invoked, and the updated breaker. -/
structure ExecOutcome (Err : Type) where
  result : Option (CBError Err)
  invoked : Bool
  cb : CircuitBreaker
deriving DecidableEq

/-- The part of `Execute` after the gating decision (src/failover.go lines
105-115): run the work function and do the bookkeeping; `onSuccess` always
returns nil, a failure propagates the work error. -/
def CircuitBreaker.execBody {Err : Type} (cb : CircuitBreaker) (nowFail : Int)
    (fnErr : Option Err) : ExecOutcome Err :=
  match fnErr with
  | none => ⟨none, true, cb.onSuccess⟩
  | some e => ⟨some (CBError.work e), true, cb.onFailure nowFail⟩

/-- `Execute` (src/failover.go lines 89-116). `now` is the wall-clock time
at the gating check (`time.Since cb.lastFailureTime = now - cb.lastFailureTime`),
`nowFail` the time observed by `onFailure`, `fnErr` the work result. -/
def CircuitBreaker.execute {Err : Type} (cb : CircuitBreaker) (now nowFail : Int)
    (fnErr : Option Err) : ExecOutcome Err :=
  if cb.state = State.Open then
    if now - cb.lastFailureTime > cb.openTimeout then
      CircuitBreaker.execBody
        { cb with state := State.HalfOpen, successCount := 0 } nowFail fnErr
    else ⟨some CBError.circuitOpen, false, cb⟩
  else CircuitBreaker.execBody cb nowFail fnErr

/-- Breaker after a run of consecutive succeeding `Execute` calls (gate and
failure times are irrelevant on these paths and fixed to 0). -/
def runSuccesses (cb : CircuitBreaker) : Nat → CircuitBreaker
  | 0 => cb
  | n + 1 => runSuccesses (cb.execute 0 0 (none : Option Unit)).cb n

/-- Breaker after a run of consecutive failing `Execute` calls, each failure
recorded at time 0. -/
def runFailures (cb : CircuitBreaker) : Nat → CircuitBreaker
  | 0 => cb
  | n + 1 => runFailures (cb.execute 0 0 (some ())).cb n

/-- The uncapped geometric wait schedule asserted by the spec's words:
`n` waits, the j-th lasting `d * 2 ^ j` with no maximum. Stated only for
comparison with the code's wrapping schedule below. -/
def geomWaits (d : Int) (n : Nat) : List Int :=
  (List.range n).map (fun j => d * 2 ^ j)

/-- The wait schedule the code produces: `n` waits, the j-th using delay
`d * 2 ^ j` wrapped into the signed 64-bit range by the `time.Duration`
doubling. -/
def geomWaits64 (d : Int) (n : Nat) : List Int :=
  (List.range n).map (fun j => wrap64 (d * 2 ^ j))

/- Concrete inputs used by the witnesses. -/

/-- Context that never cancels. -/
def noCancelCtx : Ctx := ⟨fun _ => false, fun _ => false⟩

/-- Context whose pre-invocation check observes cancellation at iteration 2. -/
def cancelAt2Ctx : Ctx := ⟨fun i => decide (i = 2), fun _ => false⟩

/-- Context that cancels during the inter-attempt wait after iteration 1. -/
def waitCancelCtx : Ctx := ⟨fun _ => false, fun i => decide (i = 1)⟩

/-- Work function that fails on every invocation (error = invocation index). -/
def alwaysFailFn : Nat → Option Nat := fun i => some i

/-- Work function failing on invocations 0,1,2 and succeeding from 3 on. -/
def failThenOkFn : Nat → Option Nat := fun i => if i < 3 then some i else none

/-- A breaker sitting in `Open` whose cooldown has not elapsed at time 5. -/
def cbOpen : CircuitBreaker := ⟨State.Open, 2, 2, 10, 2, 0, 0⟩

/-- A breaker sitting in `HalfOpen`. -/
def cbHalf : CircuitBreaker := ⟨State.HalfOpen, 2, 2, 10, 0, 0, 0⟩

/-- A `Closed` breaker one failure away from its threshold. -/
def cbAtTrip : CircuitBreaker := ⟨State.Closed, 2, 2, 10, 1, 0, 0⟩

/-- A `Closed` breaker more than one failure away from its threshold. -/
def cbBelowTrip : CircuitBreaker := ⟨State.Closed, 3, 2, 10, 0, 0, 0⟩

/-- Work function that succeeds on every invocation. -/
def alwaysOkFn : Nat → Option Nat := fun _ => none

end Failover

namespace Failover

theorem retryLoop_invocations_pos {Err : Type} (fn : Nat → Option Err) (ctx : Ctx)
    (i r : Nat) (d : Int) (hr : 1 ≤ r) (hc : ctx.doneAtCheck i = false) :
    1 ≤ (retryLoop fn ctx i r d).invocations := by
  obtain ⟨r', rfl⟩ : ∃ r', r = r' + 1 := ⟨r - 1, by omega⟩
  cases hfn : fn i with
  | none => simp [retryLoop, hc, hfn]
  | some e =>
    by_cases h0 : r' = 0
    · simp [retryLoop, hc, hfn, h0]
    · cases hw : ctx.doneDuringWait i <;> simp [retryLoop, hc, hfn, h0, hw]

theorem retryLoop_all_fail {Err : Type} (fn : Nat → Option Err) (ctx : Ctx)
    (hnc : ∀ j, ctx.doneAtCheck j = false ∧ ctx.doneDuringWait j = false)
    (hfail : ∀ j, (fn j).isSome) :
    ∀ (r : Nat), 1 ≤ r → ∀ (i : Nat) (d : Int),
      (retryLoop fn ctx i r d).invocations = r ∧
        ∀ e, fn (i + r - 1) = some e →
          (retryLoop fn ctx i r d).res = RetryRes.workErr e := by
  intro r
  induction r with
  | zero => omega
  | succ r ih =>
    intro _ i d
    obtain ⟨hc, hw⟩ := hnc i
    obtain ⟨e0, he0⟩ := Option.isSome_iff_exists.mp (hfail i)
    by_cases h0 : r = 0
    · subst h0
      refine ⟨by simp [retryLoop, hc, he0], fun e he => ?_⟩
      have : e0 = e := by
        have : some e0 = some e := by rw [← he0, ← he]; norm_num
        exact Option.some_injective _ this
      subst this
      simp [retryLoop, hc, he0]
    · have ih1 := ih (by omega) (i + 1) (wrap64 (d * 2))
      refine ⟨?_, fun e he => ?_⟩
      · simp [retryLoop, hc, he0, h0, hw, ih1.1]
      · have : i + 1 + r - 1 = i + (r + 1) - 1 := by omega
        rw [this] at ih1
        simp [retryLoop, hc, he0, h0, hw, ih1.2 e he]

theorem retryLoop_first_success {Err : Type} (fn : Nat → Option Err) (ctx : Ctx)
    (hnc : ∀ j, ctx.doneAtCheck j = false ∧ ctx.doneDuringWait j = false) :
    ∀ (k i r : Nat) (d : Int), k < r →
      (∀ j, j < k → (fn (i + j)).isSome) → fn (i + k) = none →
      (retryLoop fn ctx i r d).invocations = k + 1 ∧
        (retryLoop fn ctx i r d).res = RetryRes.ok := by
  intro k
  induction k with
  | zero =>
    intro i r d hr _ hk
    obtain ⟨r', rfl⟩ : ∃ r', r = r' + 1 := ⟨r - 1, by omega⟩
    obtain ⟨hc, _⟩ := hnc i
    rw [Nat.add_zero] at hk
    exact ⟨by simp [retryLoop, hc, hk], by simp [retryLoop, hc, hk]⟩
  | succ k ih =>
    intro i r d hr hpre hk
    obtain ⟨r', rfl⟩ : ∃ r', r = r' + 1 := ⟨r - 1, by omega⟩
    obtain ⟨hc, hw⟩ := hnc i
    obtain ⟨e0, he0⟩ := Option.isSome_iff_exists.mp
      (by simpa using hpre 0 (Nat.succ_pos k))
    have h0 : r' ≠ 0 := by omega
    have ihs := ih (i + 1) r' (wrap64 (d * 2)) (by omega)
      (fun j hj => by
        have := hpre (j + 1) (by omega)
        simpa [Nat.add_assoc, Nat.add_comm 1 j] using this)
      (by
        have : i + 1 + k = i + (k + 1) := by omega
        rw [this, hk])
    exact ⟨by simp [retryLoop, hc, he0, h0, hw, ihs.1],
      by simp [retryLoop, hc, he0, h0, hw, ihs.2]⟩

theorem retryLoop_cancel_at_check {Err : Type} (fn : Nat → Option Err) (ctx : Ctx) :
    ∀ (k i r : Nat) (d : Int), k < r →
      (∀ j, j < k → (fn (i + j)).isSome ∧ ctx.doneAtCheck (i + j) = false ∧
        ctx.doneDuringWait (i + j) = false) →
      ctx.doneAtCheck (i + k) = true →
      (retryLoop fn ctx i r d).res = RetryRes.ctxErr ∧
        (retryLoop fn ctx i r d).invocations = k := by
  intro k
  induction k with
  | zero =>
    intro i r d hr _ hk
    obtain ⟨r', rfl⟩ : ∃ r', r = r' + 1 := ⟨r - 1, by omega⟩
    rw [Nat.add_zero] at hk
    exact ⟨by simp [retryLoop, hk], by simp [retryLoop, hk]⟩
  | succ k ih =>
    intro i r d hr hpre hk
    obtain ⟨r', rfl⟩ : ∃ r', r = r' + 1 := ⟨r - 1, by omega⟩
    obtain ⟨hfn0, hc, hw⟩ := hpre 0 (Nat.succ_pos k)
    rw [Nat.add_zero] at hfn0 hc hw
    obtain ⟨e0, he0⟩ := Option.isSome_iff_exists.mp hfn0
    have h0 : r' ≠ 0 := by omega
    have ihs := ih (i + 1) r' (wrap64 (d * 2)) (by omega)
      (fun j hj => by
        have := hpre (j + 1) (by omega)
        simpa [Nat.add_assoc, Nat.add_comm 1 j] using this)
      (by
        have : i + 1 + k = i + (k + 1) := by omega
        rw [this, hk])
    exact ⟨by simp [retryLoop, hc, he0, h0, hw, ihs.1],
      by simp [retryLoop, hc, he0, h0, hw, ihs.2]⟩

theorem retryLoop_cancel_in_wait {Err : Type} (fn : Nat → Option Err) (ctx : Ctx) :
    ∀ (k i r : Nat) (d : Int), k + 1 < r →
      (∀ j, j < k → (fn (i + j)).isSome ∧ ctx.doneAtCheck (i + j) = false ∧
        ctx.doneDuringWait (i + j) = false) →
      ctx.doneAtCheck (i + k) = false → (fn (i + k)).isSome →
      ctx.doneDuringWait (i + k) = true →
      (retryLoop fn ctx i r d).res = RetryRes.ctxErr ∧
        (retryLoop fn ctx i r d).invocations = k + 1 := by
  intro k
  induction k with
  | zero =>
    intro i r d hr _ hc hfn hk
    obtain ⟨r', rfl⟩ : ∃ r', r = r' + 1 := ⟨r - 1, by omega⟩
    rw [Nat.add_zero] at hc hfn hk
    obtain ⟨e0, he0⟩ := Option.isSome_iff_exists.mp hfn
    have h0 : r' ≠ 0 := by omega
    exact ⟨by simp [retryLoop, hc, he0, h0, hk], by simp [retryLoop, hc, he0, h0, hk]⟩
  | succ k ih =>
    intro i r d hr hpre hc hfn hk
    obtain ⟨r', rfl⟩ : ∃ r', r = r' + 1 := ⟨r - 1, by omega⟩
    obtain ⟨hfn0, hc0, hw0⟩ := hpre 0 (Nat.succ_pos k)
    rw [Nat.add_zero] at hfn0 hc0 hw0
    obtain ⟨e0, he0⟩ := Option.isSome_iff_exists.mp hfn0
    have h0 : r' ≠ 0 := by omega
    have harith : i + 1 + k = i + (k + 1) := by omega
    have ihs := ih (i + 1) r' (wrap64 (d * 2)) (by omega)
      (fun j hj => by
        have := hpre (j + 1) (by omega)
        simpa [Nat.add_assoc, Nat.add_comm 1 j] using this)
      (by rw [harith]; exact hc) (by rw [harith]; exact hfn)
      (by rw [harith]; exact hk)
    exact ⟨by simp [retryLoop, hc0, he0, h0, hw0, ihs.1],
      by simp [retryLoop, hc0, he0, h0, hw0, ihs.2]⟩

theorem wrap64_emod (x : Int) :
    wrap64 x % 18446744073709551616 = x % 18446744073709551616 := by
  unfold wrap64
  omega

theorem wrap64_congr {x y : Int}
    (h : x % 18446744073709551616 = y % 18446744073709551616) :
    wrap64 x = wrap64 y := by
  unfold wrap64
  omega

theorem wrap64_idem (x : Int) : wrap64 (wrap64 x) = wrap64 x :=
  wrap64_congr (wrap64_emod x)

theorem wrap64_mul_left (x c : Int) : wrap64 (wrap64 x * c) = wrap64 (x * c) :=
  wrap64_congr (Int.ModEq.mul_right c (wrap64_emod x))

theorem geomWaits64_cons (d : Int) (m : Nat) (hd : wrap64 d = d) :
    d :: geomWaits64 (wrap64 (d * 2)) m = geomWaits64 d (m + 1) := by
  unfold geomWaits64
  rw [List.range_succ_eq_map, List.map_cons, List.map_map]
  have hf : ((fun j => wrap64 (d * 2 ^ j)) ∘ Nat.succ) =
      fun j => wrap64 (wrap64 (d * 2) * 2 ^ j) := by
    funext j
    simp only [Function.comp_apply, Nat.succ_eq_add_one]
    rw [wrap64_mul_left]
    congr 1
    rw [pow_succ]
    ring
  rw [hf, pow_zero, mul_one, hd]

theorem retryLoop_waits_geom {Err : Type} (fn : Nat → Option Err) (ctx : Ctx)
    (hnc : ∀ j, ctx.doneAtCheck j = false ∧ ctx.doneDuringWait j = false) :
    ∀ (r i : Nat) (d : Int), wrap64 d = d →
      (retryLoop fn ctx i r d).waits =
        geomWaits64 d ((retryLoop fn ctx i r d).invocations - 1) := by
  intro r
  induction r with
  | zero => intro i d _; simp [retryLoop, geomWaits64]
  | succ r ih =>
    intro i d hd
    obtain ⟨hc, hw⟩ := hnc i
    cases hfn : fn i with
    | none => simp [retryLoop, hc, hfn, geomWaits64]
    | some e =>
      by_cases h0 : r = 0
      · simp [retryLoop, hc, hfn, h0, geomWaits64]
      · have hpos : 1 ≤ (retryLoop fn ctx (i + 1) r (wrap64 (d * 2))).invocations :=
          retryLoop_invocations_pos fn ctx (i + 1) r (wrap64 (d * 2)) (by omega)
            (hnc (i + 1)).1
        obtain ⟨m, hm⟩ :
            ∃ m, (retryLoop fn ctx (i + 1) r (wrap64 (d * 2))).invocations = m + 1 :=
          ⟨(retryLoop fn ctx (i + 1) r (wrap64 (d * 2))).invocations - 1, by omega⟩
        have ihr := ih (i + 1) (wrap64 (d * 2)) (wrap64_idem (d * 2))
        rw [hm] at ihr
        simp only [Nat.add_sub_cancel] at ihr
        simp [retryLoop, hc, hfn, h0, hw, hm, ihr, geomWaits64_cons d m hd]

/-- Claim C4: for `attempts = N ≥ 1`, a non-cancelled context and a work
function that errors on every invocation, `Retry` invokes the work function
exactly `N` times and returns the error produced by the final invocation. -/
theorem retry_bounded_attempts {Err : Type} (ctx : Ctx) (attempts : Int)
    (d : Int) (fn : Nat → Option Err) (hatt : 1 ≤ attempts)
    (hnc : ∀ j, ctx.doneAtCheck j = false ∧ ctx.doneDuringWait j = false)
    (hfail : ∀ j, (fn j).isSome) :
    (Retry ctx attempts d fn).invocations = attempts.toNat ∧
      ∀ e, fn (attempts.toNat - 1) = some e →
        (Retry ctx attempts d fn).res = RetryRes.workErr e := by
  have h := retryLoop_all_fail fn ctx hnc hfail attempts.toNat (by omega) 0 d
  simpa [Retry] using h

/-- Witness for C4: three attempts of an always-failing work function. -/
theorem retry_bounded_attempts_witness :
    (Retry noCancelCtx 3 5 alwaysFailFn).invocations = (3 : Int).toNat ∧
      (Retry noCancelCtx 3 5 alwaysFailFn).res = RetryRes.workErr 2 :=
  ⟨(retry_bounded_attempts noCancelCtx 3 5 alwaysFailFn (by decide)
      (fun _ => ⟨rfl, rfl⟩) (fun _ => rfl)).1,
    (retry_bounded_attempts noCancelCtx 3 5 alwaysFailFn (by decide)
      (fun _ => ⟨rfl, rfl⟩) (fun _ => rfl)).2 2 rfl⟩

/-- Claim C5: with a non-cancelled context, if the work function fails on
its first `k` invocations and succeeds on invocation `k + 1` with
`k < attempts`, `Retry` invokes it exactly `k + 1` times and returns nil;
in particular a never-failing work function is invoked exactly once, for
any `attempts ≥ 1`. -/
theorem retry_early_success {Err : Type} (ctx : Ctx) (attempts : Int)
    (d : Int) (fn : Nat → Option Err) (k : Nat)
    (hnc : ∀ j, ctx.doneAtCheck j = false ∧ ctx.doneDuringWait j = false) :
    (k < attempts.toNat → (∀ j, j < k → (fn j).isSome) → fn k = none →
      (Retry ctx attempts d fn).invocations = k + 1 ∧
        (Retry ctx attempts d fn).res = RetryRes.ok) ∧
    (1 ≤ attempts → (∀ j, fn j = none) →
      (Retry ctx attempts d fn).invocations = 1 ∧
        (Retry ctx attempts d fn).res = RetryRes.ok) := by
  constructor
  · intro hk hpre hsucc
    have h := retryLoop_first_success fn ctx hnc k 0 attempts.toNat d hk
      (fun j hj => by simpa using hpre j hj) (by simpa using hsucc)
    simpa [Retry] using h
  · intro hatt hok
    have h := retryLoop_first_success fn ctx hnc 0 0 attempts.toNat d
      (by omega) (fun j hj => by omega) (by simpa using hok 0)
    simpa [Retry] using h

/-- Witness for C5: three failures then success within five attempts, and a
never-failing work function under seventeen attempts. -/
theorem retry_early_success_witness :
    ((Retry noCancelCtx 5 2 failThenOkFn).invocations = 3 + 1 ∧
      (Retry noCancelCtx 5 2 failThenOkFn).res = RetryRes.ok) ∧
    ((Retry noCancelCtx 17 2 alwaysOkFn).invocations = 1 ∧
      (Retry noCancelCtx 17 2 alwaysOkFn).res = RetryRes.ok) :=
  ⟨(retry_early_success noCancelCtx 5 2 failThenOkFn 3
      (fun _ => ⟨rfl, rfl⟩)).1 (by decide) (by decide) (by decide),
    (retry_early_success noCancelCtx 17 2 alwaysOkFn 0
      (fun _ => ⟨rfl, rfl⟩)).2 (by decide) (fun _ => rfl)⟩

/-- Claim C6: if the first `k` iterations complete cleanly (work fails, no
cancellation) and cancellation is then observed — either at the
pre-invocation check of iteration `k`, or during the inter-attempt wait
after iteration `k` when it is not the final attempt — `Retry` returns the
cancellation error, not a work error, and performs no further invocations
of the work function. -/
theorem retry_cancellation_precedence {Err : Type} (ctx : Ctx) (attempts : Int)
    (d : Int) (fn : Nat → Option Err) (k : Nat)
    (hclean : ∀ j, j < k → (fn j).isSome ∧ ctx.doneAtCheck j = false ∧
      ctx.doneDuringWait j = false) :
    (k < attempts.toNat → ctx.doneAtCheck k = true →
      (Retry ctx attempts d fn).res = RetryRes.ctxErr ∧
        (Retry ctx attempts d fn).invocations = k) ∧
    (k + 1 < attempts.toNat → ctx.doneAtCheck k = false → (fn k).isSome →
      ctx.doneDuringWait k = true →
      (Retry ctx attempts d fn).res = RetryRes.ctxErr ∧
        (Retry ctx attempts d fn).invocations = k + 1) := by
  constructor
  · intro hk hdone
    have h := retryLoop_cancel_at_check fn ctx k 0 attempts.toNat d hk
      (fun j hj => by simpa using hclean j hj) (by simpa using hdone)
    simpa [Retry] using h
  · intro hk hc hfn hdone
    have h := retryLoop_cancel_in_wait fn ctx k 0 attempts.toNat d hk
      (fun j hj => by simpa using hclean j hj) (by simpa using hc)
      (by simpa using hfn) (by simpa using hdone)
    simpa [Retry] using h

/-- Witness for C6: cancellation at the check of iteration 2, and
cancellation during the wait after iteration 1, both under an
always-failing work function and five attempts. -/
theorem retry_cancellation_precedence_witness :
    ((Retry cancelAt2Ctx 5 1 alwaysFailFn).res = RetryRes.ctxErr ∧
      (Retry cancelAt2Ctx 5 1 alwaysFailFn).invocations = 2) ∧
    ((Retry waitCancelCtx 5 1 alwaysFailFn).res = RetryRes.ctxErr ∧
      (Retry waitCancelCtx 5 1 alwaysFailFn).invocations = 1 + 1) :=
  ⟨(retry_cancellation_precedence cancelAt2Ctx 5 1 alwaysFailFn 2
      (fun j hj => by interval_cases j <;> exact ⟨rfl, rfl, rfl⟩)).1
      (by decide) (by decide),
    (retry_cancellation_precedence waitCancelCtx 5 1 alwaysFailFn 1
      (fun j hj => by interval_cases j; exact ⟨rfl, rfl, rfl⟩)).2
      (by decide) (by decide) (by decide) (by decide)⟩

/-- Claim C7 counterexample: the uncapped schedule `initialDelay * 2 ^ i`
fails once `delay *= 2` wraps as int64: with initial delay 2 ^ 62 =
4611686018427387904 and three failing attempts, the wait after attempt 1
uses the wrapped delay -(2 ^ 63), not 2 ^ 63. -/
theorem retry_backoff_uncapped_counterexample :
    ¬ (Retry noCancelCtx 3 4611686018427387904 alwaysFailFn).waits =
        geomWaits 4611686018427387904
          ((Retry noCancelCtx 3 4611686018427387904 alwaysFailFn).invocations - 1) := by
  decide

/-- Claim C7 (amended): in a run with no cancellation and an in-range
(int64) initial delay, a wait is performed after exactly the failed
non-final attempts — none after the final attempt or after a successful
attempt — and the wait after the i-th attempt (0-indexed) uses delay
`initialDelay * 2 ^ i` wrapped into the signed 64-bit range by Go's
`time.Duration` doubling; this equals `initialDelay * 2 ^ i` with no
maximum cap for as long as that value fits in int64. -/
theorem retry_backoff_schedule {Err : Type} (ctx : Ctx) (attempts : Int)
    (d : Int) (fn : Nat → Option Err) (hd : wrap64 d = d)
    (hnc : ∀ j, ctx.doneAtCheck j = false ∧ ctx.doneDuringWait j = false) :
    (Retry ctx attempts d fn).waits =
      geomWaits64 d ((Retry ctx attempts d fn).invocations - 1) :=
  retryLoop_waits_geom fn ctx hnc attempts.toNat 0 d hd

/-- Witness for the amended C7: three failures then success, initial delay
3, so the waits are [3, 6, 12]. -/
theorem retry_backoff_schedule_witness :
    (Retry noCancelCtx 5 3 failThenOkFn).waits =
      geomWaits64 3 ((Retry noCancelCtx 5 3 failThenOkFn).invocations - 1) :=
  retry_backoff_schedule noCancelCtx 5 3 failThenOkFn (by decide)
    (fun _ => ⟨rfl, rfl⟩)

theorem runSuccesses_close :
    ∀ (k : Nat) (cb : CircuitBreaker), cb.state = State.HalfOpen →
      cb.successCount + (k : Int) = cb.successThreshold → 1 ≤ k →
      (runSuccesses cb k).state = State.Closed ∧
        (runSuccesses cb k).failureCount = 0 := by
  intro k
  induction k with
  | zero => intro cb _ _ h; omega
  | succ k ih =>
    intro cb hs hsum _
    obtain ⟨st, ft, sth, ot, fc, sc, lt⟩ := cb
    change st = State.HalfOpen at hs
    change sc + ((k : Int) + 1) = sth at hsum
    subst hs
    by_cases hge : sc + 1 ≥ sth
    · have hk0 : k = 0 := by omega
      subst hk0
      simp [runSuccesses, CircuitBreaker.execute, CircuitBreaker.execBody,
        CircuitBreaker.onSuccess, hge]
    · have hstep : runSuccesses
          (⟨State.HalfOpen, ft, sth, ot, fc, sc, lt⟩ : CircuitBreaker) (k + 1) =
          runSuccesses (⟨State.HalfOpen, ft, sth, ot, fc, sc + 1, lt⟩ : CircuitBreaker) k := by
        simp [runSuccesses, CircuitBreaker.execute, CircuitBreaker.execBody,
          CircuitBreaker.onSuccess, hge]
      rw [hstep]
      exact ih ⟨State.HalfOpen, ft, sth, ot, fc, sc + 1, lt⟩ rfl (by
        change sc + 1 + (k : Int) = sth
        omega) (by omega)

theorem runFailures_trip :
    ∀ (k : Nat) (cb : CircuitBreaker), cb.state = State.Closed →
      cb.failureCount + (k : Int) = cb.failureThreshold → 1 ≤ k →
      (runFailures cb k).state = State.Open := by
  intro k
  induction k with
  | zero => intro cb _ _ h; omega
  | succ k ih =>
    intro cb hs hsum _
    obtain ⟨st, ft, sth, ot, fc, sc, lt⟩ := cb
    change st = State.Closed at hs
    change fc + ((k : Int) + 1) = ft at hsum
    subst hs
    by_cases hge : fc + 1 ≥ ft
    · have hk0 : k = 0 := by omega
      subst hk0
      simp [runFailures, CircuitBreaker.execute, CircuitBreaker.execBody,
        CircuitBreaker.onFailure, hge]
    · have hstep : runFailures
          (⟨State.Closed, ft, sth, ot, fc, sc, lt⟩ : CircuitBreaker) (k + 1) =
          runFailures (⟨State.Closed, ft, sth, ot, fc + 1, sc, lt⟩ : CircuitBreaker) k := by
        simp [runFailures, CircuitBreaker.execute, CircuitBreaker.execBody,
          CircuitBreaker.onFailure, hge]
      rw [hstep]
      exact ih ⟨State.Closed, ft, sth, ot, fc + 1, sc, lt⟩ rfl (by
        change fc + 1 + (k : Int) = ft
        omega) (by omega)

theorem runFailures_below :
    ∀ (k : Nat) (cb : CircuitBreaker), cb.state = State.Closed →
      cb.failureCount + (k : Int) < cb.failureThreshold →
      (runFailures cb k).state = State.Closed ∧
        (runFailures cb k).failureCount = cb.failureCount + (k : Int) := by
  intro k
  induction k with
  | zero => intro cb hs _; exact ⟨hs, by simp [runFailures]⟩
  | succ k ih =>
    intro cb hs hlt
    obtain ⟨st, ft, sth, ot, fc, sc, lt⟩ := cb
    change st = State.Closed at hs
    change fc + ((k : Int) + 1) < ft at hlt
    subst hs
    have hge : ¬ fc + 1 ≥ ft := by omega
    have hstep : runFailures
        (⟨State.Closed, ft, sth, ot, fc, sc, lt⟩ : CircuitBreaker) (k + 1) =
        runFailures (⟨State.Closed, ft, sth, ot, fc + 1, sc, lt⟩ : CircuitBreaker) k := by
      simp [runFailures, CircuitBreaker.execute, CircuitBreaker.execBody,
        CircuitBreaker.onFailure, hge]
    rw [hstep]
    have := ih ⟨State.Closed, ft, sth, ot, fc + 1, sc, lt⟩ rfl (by
      change fc + 1 + (k : Int) < ft
      omega)
    refine ⟨this.1, ?_⟩
    rw [this.2]
    change fc + 1 + (k : Int) = fc + ((k : Int) + 1)
    omega

theorem execute_success_closed {Err : Type} (cb : CircuitBreaker)
    (h : cb.state = State.Closed) (now nowFail : Int) :
    (cb.execute now nowFail (none : Option Err)).cb.state = State.Closed ∧
      (cb.execute now nowFail (none : Option Err)).cb.failureCount = 0 := by
  obtain ⟨st, ft, sth, ot, fc, sc, lt⟩ := cb
  change st = State.Closed at h
  subst h
  simp [CircuitBreaker.execute, CircuitBreaker.execBody, CircuitBreaker.onSuccess]

/-- Claim C1: an `Execute` call on an `Open` breaker whose cooldown has
elapsed is admitted with the breaker moved to `HalfOpen` and `successCount`
reset to 0 (the whole call behaves as the post-gate body run on that
`HalfOpen` breaker); if that admitted call fails the breaker is back in
`Open` with `lastFailureTime` set to the failure's timestamp; and
`successThreshold` consecutive succeeding calls from the `HalfOpen` state
close the breaker and reset `failureCount` to 0. -/
theorem breaker_half_open_trial {Err : Type} (cb : CircuitBreaker)
    (now nowFail : Int) (e : Err)
    (hOpen : cb.state = State.Open)
    (hElapsed : now - cb.lastFailureTime > cb.openTimeout) :
    (∀ fnErr : Option Err, cb.execute now nowFail fnErr =
        CircuitBreaker.execBody
          { cb with state := State.HalfOpen, successCount := 0 } nowFail fnErr) ∧
      (cb.execute now nowFail (some e)).invoked = true ∧
      (cb.execute now nowFail (some e)).cb.state = State.Open ∧
      (cb.execute now nowFail (some e)).cb.lastFailureTime = nowFail ∧
      (0 < cb.successThreshold →
        (runSuccesses { cb with state := State.HalfOpen, successCount := 0 }
            cb.successThreshold.toNat).state = State.Closed ∧
          (runSuccesses { cb with state := State.HalfOpen, successCount := 0 }
              cb.successThreshold.toNat).failureCount = 0) := by
  have hgate : ∀ fnErr : Option Err, cb.execute now nowFail fnErr =
      CircuitBreaker.execBody
        { cb with state := State.HalfOpen, successCount := 0 } nowFail fnErr := by
    intro fnErr
    unfold CircuitBreaker.execute
    rw [if_pos hOpen, if_pos hElapsed]
  refine ⟨hgate, ?_, ?_, ?_, ?_⟩
  · rw [hgate (some e)]; rfl
  · rw [hgate (some e)]; rfl
  · rw [hgate (some e)]; rfl
  · intro hpos
    exact runSuccesses_close cb.successThreshold.toNat
      { cb with state := State.HalfOpen, successCount := 0 } rfl
      (by simp only []; omega) (by omega)

/-- Witness for C1: `cbOpen` at time 11 (cooldown 10 elapsed since failure
at 0), trial failure recorded at time 7, then two consecutive successes. -/
theorem breaker_half_open_trial_witness :
    cbOpen.execute 11 7 (some (0 : Nat)) =
        CircuitBreaker.execBody
          { cbOpen with state := State.HalfOpen, successCount := 0 } 7 (some 0) ∧
      (cbOpen.execute 11 7 (some (0 : Nat))).invoked = true ∧
      (cbOpen.execute 11 7 (some (0 : Nat))).cb.state = State.Open ∧
      (cbOpen.execute 11 7 (some (0 : Nat))).cb.lastFailureTime = 7 ∧
      ((runSuccesses { cbOpen with state := State.HalfOpen, successCount := 0 }
          cbOpen.successThreshold.toNat).state = State.Closed ∧
        (runSuccesses { cbOpen with state := State.HalfOpen, successCount := 0 }
            cbOpen.successThreshold.toNat).failureCount = 0) := by
  have h := breaker_half_open_trial cbOpen 11 7 (0 : Nat) rfl (by decide)
  exact ⟨h.1 (some 0), h.2.1, h.2.2.1, h.2.2.2.1, h.2.2.2.2 (by decide)⟩

/-- Claim C2: a `Closed` breaker with `failureCount = 0` and positive
`failureThreshold = F` reaches `Open` after exactly `F` consecutive failing
calls (after `F - 1` it is still `Closed`), and `F - 1` failures followed
by one success leave it `Closed` with `failureCount` reset to 0. -/
theorem breaker_trip_threshold (cb : CircuitBreaker)
    (hClosed : cb.state = State.Closed) (hCount : cb.failureCount = 0)
    (hF : 0 < cb.failureThreshold) :
    (runFailures cb cb.failureThreshold.toNat).state = State.Open ∧
      (runFailures cb (cb.failureThreshold.toNat - 1)).state = State.Closed ∧
      ((runFailures cb (cb.failureThreshold.toNat - 1)).execute 0 0
          (none : Option Unit)).cb.state = State.Closed ∧
      ((runFailures cb (cb.failureThreshold.toNat - 1)).execute 0 0
          (none : Option Unit)).cb.failureCount = 0 := by
  have htrip := runFailures_trip cb.failureThreshold.toNat cb hClosed
    (by omega) (by omega)
  have hbelow := runFailures_below (cb.failureThreshold.toNat - 1) cb hClosed
    (by omega)
  have hsucc := @execute_success_closed Unit
    (runFailures cb (cb.failureThreshold.toNat - 1)) hbelow.1 0 0
  exact ⟨htrip, hbelow.1, hsucc.1, hsucc.2⟩

/-- Witness for C2: a fresh breaker with failure threshold 3. -/
theorem breaker_trip_threshold_witness :
    (runFailures (NewCircuitBreaker 3 2 10)
        (NewCircuitBreaker 3 2 10).failureThreshold.toNat).state = State.Open ∧
      (runFailures (NewCircuitBreaker 3 2 10)
          ((NewCircuitBreaker 3 2 10).failureThreshold.toNat - 1)).state = State.Closed ∧
      ((runFailures (NewCircuitBreaker 3 2 10)
          ((NewCircuitBreaker 3 2 10).failureThreshold.toNat - 1)).execute 0 0
          (none : Option Unit)).cb.state = State.Closed ∧
      ((runFailures (NewCircuitBreaker 3 2 10)
          ((NewCircuitBreaker 3 2 10).failureThreshold.toNat - 1)).execute 0 0
          (none : Option Unit)).cb.failureCount = 0 :=
  breaker_trip_threshold (NewCircuitBreaker 3 2 10) rfl rfl (by decide)

/-- Claim C8 counterexample: a failing admitted call on a `Closed` breaker
below its threshold (`cbBelowTrip`, threshold 3, count 0) recorded at time
7 does not update `lastFailureTime`, refuting that `lastFailureTime` is
updated on every recorded failure. -/
theorem breaker_lastFailureTime_counterexample :
    (cbBelowTrip.execute 3 7 (some (0 : Nat))).invoked = true ∧
      ¬ (cbBelowTrip.execute 3 7 (some (0 : Nat))).cb.lastFailureTime = 7 := by
  decide

/-- Claim C8 (amended): `lastFailureTime` is set to the failure's timestamp
exactly on the failures that move the breaker to `Open` — any failure in
`HalfOpen`, and a failure in `Closed` that raises `failureCount` to
`failureThreshold`; a failure in `Closed` that stays below the threshold
leaves `lastFailureTime` (and the `Closed` state) unchanged. -/
theorem breaker_lastFailureTime_amended {Err : Type} (cb : CircuitBreaker)
    (now nowFail : Int) (e : Err) :
    (cb.state = State.HalfOpen →
      (cb.execute now nowFail (some e)).cb.lastFailureTime = nowFail ∧
        (cb.execute now nowFail (some e)).cb.state = State.Open) ∧
    (cb.state = State.Closed → cb.failureThreshold ≤ cb.failureCount + 1 →
      (cb.execute now nowFail (some e)).cb.lastFailureTime = nowFail ∧
        (cb.execute now nowFail (some e)).cb.state = State.Open) ∧
    (cb.state = State.Closed → cb.failureCount + 1 < cb.failureThreshold →
      (cb.execute now nowFail (some e)).cb.lastFailureTime = cb.lastFailureTime ∧
        (cb.execute now nowFail (some e)).cb.state = State.Closed) := by
  obtain ⟨st, ft, sth, ot, fc, sc, lt⟩ := cb
  refine ⟨fun hs => ?_, fun hs hge => ?_, fun hs hlt => ?_⟩
  · change st = State.HalfOpen at hs
    subst hs
    simp [CircuitBreaker.execute, CircuitBreaker.execBody, CircuitBreaker.onFailure]
  · change st = State.Closed at hs
    subst hs
    change ft ≤ fc + 1 at hge
    simp [CircuitBreaker.execute, CircuitBreaker.execBody,
      CircuitBreaker.onFailure, hge]
  · change st = State.Closed at hs
    subst hs
    change fc + 1 < ft at hlt
    have hge : ¬ fc + 1 ≥ ft := by omega
    simp [CircuitBreaker.execute, CircuitBreaker.execBody,
      CircuitBreaker.onFailure, hge]

/-- Witness for the amended C8: a `HalfOpen` failure and a threshold-reaching
`Closed` failure set `lastFailureTime` to 9; a below-threshold `Closed`
failure leaves it unchanged. -/
theorem breaker_lastFailureTime_amended_witness :
    ((cbHalf.execute 0 9 (some (0 : Nat))).cb.lastFailureTime = 9 ∧
      (cbHalf.execute 0 9 (some (0 : Nat))).cb.state = State.Open) ∧
    ((cbAtTrip.execute 0 9 (some (0 : Nat))).cb.lastFailureTime = 9 ∧
      (cbAtTrip.execute 0 9 (some (0 : Nat))).cb.state = State.Open) ∧
    ((cbBelowTrip.execute 0 9 (some (0 : Nat))).cb.lastFailureTime =
        cbBelowTrip.lastFailureTime ∧
      (cbBelowTrip.execute 0 9 (some (0 : Nat))).cb.state = State.Closed) :=
  ⟨(breaker_lastFailureTime_amended cbHalf 0 9 0).1 rfl,
    (breaker_lastFailureTime_amended cbAtTrip 0 9 0).2.1 rfl (by decide),
    (breaker_lastFailureTime_amended cbBelowTrip 0 9 0).2.2 rfl (by decide)⟩

end Failover

namespace Failover

/-- Claim C9: for every `attempts ≤ 0`, `Retry` performs zero invocations of
the work function and returns nil, regardless of the work function, delay and
context. -/
theorem retry_nonpositive_attempts {Err : Type} (ctx : Ctx) (attempts : Int)
    (d : Int) (fn : Nat → Option Err) (h : attempts ≤ 0) :
    Retry ctx attempts d fn = ⟨RetryRes.ok, 0, []⟩ := by
  unfold Retry
  rw [Int.toNat_of_nonpos h]
  rfl

/-- Witness for C9 at `attempts = -1`. -/
theorem retry_nonpositive_attempts_witness :
    (-1 : Int) ≤ 0 ∧
      Retry noCancelCtx (-1) 7 alwaysFailFn = ⟨RetryRes.ok, 0, []⟩ :=
  ⟨by decide, retry_nonpositive_attempts noCancelCtx (-1) 7 alwaysFailFn (by decide)⟩

/-- Claim C3: an `Execute` call on an `Open` breaker whose elapsed time since
`lastFailureTime` is not greater than `openTimeout` returns the circuit-open
sentinel, does not invoke the work function, and leaves every breaker field
unchanged. -/
theorem breaker_rejects_while_open {Err : Type} (cb : CircuitBreaker)
    (now nowFail : Int) (fnErr : Option Err)
    (hOpen : cb.state = State.Open)
    (hcool : now - cb.lastFailureTime ≤ cb.openTimeout) :
    cb.execute now nowFail fnErr = ⟨some CBError.circuitOpen, false, cb⟩ := by
  unfold CircuitBreaker.execute
  rw [if_pos hOpen, if_neg (not_lt.mpr hcool)]

/-- Witness for C3: a concrete rejected call. -/
theorem breaker_rejects_while_open_witness :
    cbOpen.execute 5 9 (some (0 : Nat)) = ⟨some CBError.circuitOpen, false, cbOpen⟩ :=
  breaker_rejects_while_open cbOpen 5 9 (some 0) rfl (by decide)

/-- Claim C10: a freshly constructed breaker is `Closed` with both counters
zero, and its first `Execute` call is always admitted: the work function is
invoked and the result is never the circuit-open sentinel, for any
constructor arguments. -/
theorem breaker_initial_state (f s t : Int) :
    (NewCircuitBreaker f s t).state = State.Closed ∧
      (NewCircuitBreaker f s t).failureCount = 0 ∧
      (NewCircuitBreaker f s t).successCount = 0 ∧
      ∀ (now nowFail : Int) (fnErr : Option Nat),
        ((NewCircuitBreaker f s t).execute now nowFail fnErr).invoked = true ∧
          ((NewCircuitBreaker f s t).execute now nowFail fnErr).result ≠
            some CBError.circuitOpen := by
  refine ⟨rfl, rfl, rfl, fun now nowFail fnErr => ?_⟩
  have hcl : (NewCircuitBreaker f s t).state = State.Closed := rfl
  unfold CircuitBreaker.execute
  rw [if_neg (by rw [hcl]; exact fun h => State.noConfusion h)]
  cases fnErr with
  | none => exact ⟨rfl, by simp [CircuitBreaker.execBody]⟩
  | some e => exact ⟨rfl, by simp [CircuitBreaker.execBody]⟩

end Failover
